import Mathlib

/-!
Verification development for the Bitcoin wallet-recovery script
(`src/untitled.py`).  The Python source is shallowly embedded below:
pure fragments become Lean functions; the network layer is an explicit
oracle parameter (`Nat → Nat → HttpResult`, pass index and provider
index to response); logging, sleeping and HTTP requests are recorded as
an explicit event trace; Python exceptions caught by the code are
modelled by `Option`/sum outcomes, and a function that can propagate an
exception to its caller returns `Except`.
-/

namespace Recovery

/-! ### Character-list string utilities

Python string primitives used by the source (`in`, `str.format`,
`str.split()`, `str.count`) are modelled by executable char-list
functions so every proof can compute. -/

/-- beginsWith s pat is true when pat is an initial segment of s
(model of Python startswith, used to build the substring test). -/
def beginsWith : List Char → List Char → Bool
  | _, [] => true
  | [], _ :: _ => false
  | a :: as, b :: bs => a == b && beginsWith as bs

/-- containsSub s pat is true when pat occurs contiguously inside s
(model of the Python expression pat in s). -/
def containsSub : List Char → List Char → Bool
  | [], pat => pat.isEmpty
  | a :: as, pat => beginsWith (a :: as) pat || containsSub as pat

/-- strContains s pat models the Python membership test pat in s. -/
def strContains (s pat : String) : Bool :=
  containsSub s.data pat.data

/-- splitAtPat s pat finds the first occurrence of pat in s and returns
the characters before it and the characters after it. -/
def splitAtPat : List Char → List Char → Option (List Char × List Char)
  | [], pat => if pat.isEmpty then some ([], []) else none
  | c :: rest, pat =>
    if beginsWith (c :: rest) pat then some ([], List.drop pat.length (c :: rest))
    else
      match splitAtPat rest pat with
      | some (pre, post) => some (c :: pre, post)
      | none => none

/-- formatUrl ep address models the Python call ep.format(address=address)
for the endpoint templates of this program, each of which contains the
field {address} exactly once. -/
def formatUrl (ep address : String) : String :=
  match splitAtPat ep.data "{address}".data with
  | some (pre, post) => String.mk (pre ++ address.data ++ post)
  | none => ep

/-! ### JSON values -/

/-- Json is the value space of parsed provider responses
(model of the result of response.json() in the source). -/
inductive Json where
  | num : Int → Json
  | str : String → Json
  | bool : Bool → Json
  | null : Json
  | obj : List (String × Json) → Json
  | arr : List Json → Json

/-- Json.get j key models the Python subscript j[key]: it returns the
field value when j is an object with that key, and nothing otherwise
(a Python KeyError / TypeError, caught by the except in the source). -/
def Json.get : Json → String → Option Json
  | .obj fields, key => List.lookup key fields
  | _, _ => none

/-! ### Module-level configuration (lines 23-31 of the source) -/

/-- URL template of the blockchain.info provider (priority 0). -/
def urlBlockchainInfo : String := "https://blockchain.info/balance?active={address}"

/-- URL template of the blockcypher provider (priority 1). -/
def urlBlockcypher : String := "https://api.blockcypher.com/v1/btc/main/addrs/{address}/balance"

/-- URL template of the btc.com provider (priority 2). -/
def urlBtcCom : String := "https://chain.api.btc.com/v3/address/{address}"

/-- API_ENDPOINTS, the fixed priority-ordered provider list. -/
def API_ENDPOINTS : List String :=
  [urlBlockchainInfo, urlBlockcypher, urlBtcCom]

/-- MAX_RETRIES, the number of full passes over the provider list. -/
def MAX_RETRIES : Nat := 3

/-! ### The balance oracle, check_balance (lines 48-73) -/

/-- HttpResult is the outcome of one requests.get call followed by
raise_for_status: either some exception was raised (transport error,
timeout, or HTTP error status) or a parsed JSON body was obtained. -/
inductive HttpResult where
  | fail : HttpResult
  | ok : Json → HttpResult

/-- ParseOutcome is the outcome of the provider-specific response
parsing block: a value returned by the function, an exception raised
while extracting fields (caught by the except clause), or no dispatch
branch matched the URL (control falls through to the next provider
with no exception and no sleep). -/
inductive ParseOutcome where
  | value : Json → ParseOutcome
  | exn : ParseOutcome
  | noBranch : ParseOutcome

/-- parse_response embeds the if/elif dispatch of check_balance
(lines 62-67): the provider is recognised by a substring of the URL and
the balance is extracted by that provider-specific rule. -/
def parse_response (url address : String) (j : Json) : ParseOutcome :=
  if strContains url "blockchain.info" then
    match j.get address with
    | some inner =>
      match inner.get "final_balance" with
      | some v => .value v
      | none => .exn
    | none => .exn
  else if strContains url "blockcypher" then
    match j.get "final_balance" with
    | some v => .value v
    | none => .exn
  else if strContains url "btc.com" then
    match j.get "data" with
    | some d =>
      match d.get "confirmed" with
      | some v => .value v
      | none => .exn
    | none => .exn
  else .noBranch

/-- Request records one issued HTTP request: the pass index, the
provider index, the formatted URL, the timeout argument (15 in the
source) and whether the proxies argument was passed. -/
structure Request where
  attempt : Nat
  provider : Nat
  url : String
  timeout : Nat
  proxied : Bool
deriving DecidableEq, Repr

/-- Event is one observable step of check_balance: an HTTP request, a
warning log line, or a time.sleep call (tagged with the pass index that
issued it and the slept duration in seconds). -/
inductive Event where
  | request : Request → Event
  | warnLog : Event
  | sleep : Nat → Nat → Event
deriving DecidableEq, Repr

/-- try_endpoints embeds the inner for-loop of check_balance over the
(indexed) provider list for one pass: each provider gets one request;
on an exception the code logs, sleeps 2 ^ attempt seconds and moves to
the next provider; on a parsed value the function returns it. -/
def try_endpoints (use_proxies : Bool) (net : Nat → Nat → HttpResult)
    (address : String) (attempt : Nat) :
    List (Nat × String) → Option Json × List Event
  | [] => (none, [])
  | ie :: rest =>
    let url := formatUrl ie.2 address
    let req := Event.request ⟨attempt, ie.1, url, 15, use_proxies⟩
    match net attempt ie.1 with
    | .fail =>
      let r := try_endpoints use_proxies net address attempt rest
      (r.1, req :: Event.warnLog :: Event.sleep attempt (2 ^ attempt) :: r.2)
    | .ok j =>
      match parse_response url address j with
      | .value v => (some v, [req])
      | .exn =>
        let r := try_endpoints use_proxies net address attempt rest
        (r.1, req :: Event.warnLog :: Event.sleep attempt (2 ^ attempt) :: r.2)
      | .noBranch =>
        let r := try_endpoints use_proxies net address attempt rest
        (r.1, req :: r.2)

/-- run_passes embeds the outer for-loop of check_balance over the pass
indices range(MAX_RETRIES); a pass that produced a value ends the call,
otherwise the next pass runs and the traces concatenate. -/
def run_passes (use_proxies : Bool) (net : Nat → Nat → HttpResult)
    (address : String) : List Nat → Option Json × List Event
  | [] => (none, [])
  | a :: rest =>
    let tr := try_endpoints use_proxies net address a API_ENDPOINTS.enum
    match tr.1 with
    | some v => (some v, tr.2)
    | none =>
      let r := run_passes use_proxies net address rest
      (r.1, tr.2 ++ r.2)

/-- check_balance_core is check_balance before the final fall-through:
its first component is some extracted balance, or none when every
provider failed on every pass. -/
def check_balance_core (use_proxies : Bool) (net : Nat → Nat → HttpResult)
    (address : String) : Option Json × List Event :=
  run_passes use_proxies net address (List.range MAX_RETRIES)

/-- check_balance embeds lines 48-73: the loops above followed by the
final statement return 0, so exhaustion is reported as the number 0. -/
def check_balance (use_proxies : Bool) (net : Nat → Nat → HttpResult)
    (address : String) : Json × List Event :=
  let r := check_balance_core use_proxies net address
  (r.1.getD (Json.num 0), r.2)

/-- requestsOf projects the HTTP requests out of an event trace. -/
def requestsOf : List Event → List Request
  | [] => []
  | .request r :: rest => r :: requestsOf rest
  | .warnLog :: rest => requestsOf rest
  | .sleep _ _ :: rest => requestsOf rest

/-- passSchedule lists the requests one full pass issues: one request
per provider, in priority order, timeout 15. -/
def passSchedule (use_proxies : Bool) (address : String) (a : Nat) : List Request :=
  API_ENDPOINTS.enum.map (fun ie => ⟨a, ie.1, formatUrl ie.2 address, 15, use_proxies⟩)

/-- fullSchedule lists every request an exhausted call issues: the
MAX_RETRIES passes in order. -/
def fullSchedule (use_proxies : Bool) (address : String) : List Request :=
  (List.range MAX_RETRIES).flatMap (passSchedule use_proxies address)

/-- failNet is the response oracle on which every request fails
(for example an all-provider timeout). -/
def failNet : Nat → Nat → HttpResult := fun _ _ => .fail

/-- mkReq abbreviates the request record one provider entry produces. -/
def mkReq (use_proxies : Bool) (address : String) (attempt : Nat)
    (ie : Nat × String) : Request :=
  ⟨attempt, ie.1, formatUrl ie.2 address, 15, use_proxies⟩

/-- c3netA delivers the blockchain.info response shape (an object keyed
by the queried address) for provider 0 and fails elsewhere. -/
def c3netA : Nat → Nat → HttpResult := fun _ i =>
  if i = 0 then .ok (Json.obj [("1Addr", Json.obj [("final_balance", Json.num 500)])])
  else .fail

/-- c3netB delivers the blockcypher flat response shape for provider 1
and fails elsewhere. -/
def c3netB : Nat → Nat → HttpResult := fun _ i =>
  if i = 1 then .ok (Json.obj [("final_balance", Json.num 500)])
  else .fail

/-- c3netC delivers the btc.com nested response shape for provider 2
and fails elsewhere. -/
def c3netC : Nat → Nat → HttpResult := fun _ i =>
  if i = 2 then .ok (Json.obj [("data", Json.obj [("confirmed", Json.num 500)])])
  else .fail

/-! ### The local-node path, check_balance_local (lines 75-87) -/

/-- check_balance_local embeds lines 75-87.  The RPC call
getreceivedbyaddress is the oracle parameter rpc, returning the
received amount in whole coins (none models a raised RPC exception:
authentication or connectivity failure).  The result pairs the value
returned to the caller with whether the error branch logged. -/
def check_balance_local (rpc : String → Option Rat) (address : String) :
    Rat × Bool :=
  match rpc address with
  | some v => (v * 10 ^ 8, false)
  | none => (0, true)

/-! ### WIF validation, validate_wif (lines 89-95) -/

/-- hexDigit n is the lowercase hexadecimal digit character for n. -/
def hexDigit (n : Nat) : Char :=
  if n < 10 then Char.ofNat (48 + n) else Char.ofNat (87 + n)

/-- byteHexChars b is the two-character lowercase hex rendering of one
byte, as produced per byte by the Python bytes.hex() method. -/
def byteHexChars (b : Fin 256) : List Char :=
  [hexDigit (b.val / 16), hexDigit (b.val % 16)]

/-- bytesHex bs models bytes.hex(): the concatenated two-digit
lowercase hex rendering of the byte string. -/
def bytesHex (bs : List (Fin 256)) : String :=
  String.mk (bs.flatMap byteHexChars)

/-- validate_wif embeds lines 89-95.  The external library call
base58.decode is the oracle parameter decode; none models any raised
exception, caught by the bare except which returns False.  Python
byte strings are lists of Fin 256, and x[-4:] on a 38-byte string is
List.drop (length - 4). -/
def validate_wif (decode : String → Option (List (Fin 256))) (wif : String) : Bool :=
  match decode wif with
  | some decoded =>
    decoded.length == 38 && (bytesHex (decoded.drop (decoded.length - 4)) == "00000000")
  | none => false

/-! ### The candidate generator prefix, generate_mnemonics (lines 98-108)

The body after the length check is elided in the source (the comment
rest of generate_mnemonics); the embedding covers the placeholder
count, the warning, the length validation and the early return, which
is all that claims about this function concern. -/

/-- GenEvent is a log line emitted by generate_mnemonics: the
impracticality warning or the invalid-length error. -/
inductive GenEvent where
  | warnImpractical : GenEvent
  | errInvalidLength : GenEvent
deriving DecidableEq, Repr

/-- GenResult records the log lines generate_mnemonics emitted and
whether control reached the elided generation body (false means the
early return ran and no candidate can be emitted). -/
structure GenResult where
  events : List GenEvent
  proceeded : Bool
deriving DecidableEq, Repr

/-- countQ s models the Python call s.count(q-mark): the number of
occurrences of the placeholder character in the raw, unsplit string. -/
def countQ (s : String) : Nat :=
  (s.data.filter (fun c => c == '?')).length

/-- wordsAux is the accumulator loop behind pySplitWs. -/
def wordsAux (cur : List Char) (acc : List String) : List Char → List String
  | [] => if cur.isEmpty then acc.reverse else (String.mk cur.reverse :: acc).reverse
  | c :: rest =>
    if c.isWhitespace then
      if cur.isEmpty then wordsAux [] acc rest
      else wordsAux [] (String.mk cur.reverse :: acc) rest
    else wordsAux (c :: cur) acc rest

/-- pySplitWs models the Python call s.split() with no separator:
split on runs of whitespace, discarding empty pieces. -/
def pySplitWs (s : String) : List String :=
  wordsAux [] [] s.data

/-- VALID_LENGTHS is the list literal of line 104. -/
def VALID_LENGTHS : List Nat := [12, 15, 18, 21, 24]

/-- generate_mnemonics embeds lines 98-108.  The function counts the
placeholder characters of the raw phrase, warns when there are more
than 5, splits the phrase into words, and on an invalid word count
logs an error and returns early; every path returns normally, so the
Except layer (the Python exception channel to the caller) always
carries ok. -/
def generate_mnemonics (base_phrase : String) : Except String GenResult :=
  let missing_count := countQ base_phrase
  let warns := if missing_count > 5 then [GenEvent.warnImpractical] else []
  let base_words := pySplitWs base_phrase
  if base_words.length ∉ VALID_LENGTHS then
    Except.ok ⟨warns ++ [GenEvent.errInvalidLength], false⟩
  else
    Except.ok ⟨warns, true⟩

/-! ### The derivation engine, derive_addresses (lines 110-125) -/

/-- DPath is one hierarchical derivation path
purpose / coin / account / change / addrIndex; in every template of the
source the first three coordinates are hardened and the last two are
not, so the hardening flags are left implicit. -/
structure DPath where
  purpose : Nat
  coin : Nat
  account : Nat
  change : Nat
  addrIndex : Nat
deriving DecidableEq, Repr

/-- paths_for i is the paths list literal built for index i inside the
loop of derive_addresses (lines 118-123): BIP44 legacy, P2SH-wrapped
segwit, native segwit, and the account variation. -/
def paths_for (i : Nat) : List DPath :=
  [⟨44, 0, 0, 0, i⟩, ⟨49, 0, 0, 0, i⟩, ⟨84, 0, 0, 0, i⟩, ⟨44, 0, i, 0, 0⟩]

/-- Modelled from the spec: the body of derive_addresses after the
paths list is elided in the source (the comment rest of
derive_addresses), and the seed computation calls the external
mnemonic library.  Per the spec the elided part computes, for each
path, a deterministic hierarchical child key and its address from the
seed bytes; it is the oracle parameter derive_one, and the library
seed derivation is the oracle parameter to_seed applied to the
mnemonic and the empty passphrase of line 113.  The loop structure
range(20) with four paths per index is from the source. -/
def derive_addresses (to_seed : String → String → List Nat)
    (derive_one : List Nat → DPath → String) (mnemonic : String) :
    List (DPath × String) :=
  let passphrase := ""
  let seed := to_seed mnemonic passphrase
  (List.range 20).flatMap (fun i =>
    (paths_for i).map (fun p => (p, derive_one seed p)))


/-! ### Helper lemmas about the balance-oracle traces -/

/-- requestsOf distributes over trace concatenation. -/
theorem requestsOf_append (xs ys : List Event) :
    requestsOf (xs ++ ys) = requestsOf xs ++ requestsOf ys := by
  induction xs with
  | nil => rfl
  | cons e rest ih => cases e <;> simp [requestsOf, ih]

/-- Unfolding equation of try_endpoints when the request raises. -/
theorem try_endpoints_cons_fail (useP : Bool) (net : Nat → Nat → HttpResult)
    (address : String) (attempt : Nat) (ie : Nat × String)
    (rest : List (Nat × String)) (hnet : net attempt ie.1 = .fail) :
    try_endpoints useP net address attempt (ie :: rest) =
      ((try_endpoints useP net address attempt rest).1,
        Event.request (mkReq useP address attempt ie) :: Event.warnLog ::
          Event.sleep attempt (2 ^ attempt) ::
          (try_endpoints useP net address attempt rest).2) := by
  simp only [try_endpoints]
  rw [hnet]
  rfl

/-- Unfolding equation of try_endpoints when parsing returns a value. -/
theorem try_endpoints_cons_value (useP : Bool) (net : Nat → Nat → HttpResult)
    (address : String) (attempt : Nat) (ie : Nat × String)
    (rest : List (Nat × String)) (j v : Json) (hnet : net attempt ie.1 = .ok j)
    (hp : parse_response (formatUrl ie.2 address) address j = .value v) :
    try_endpoints useP net address attempt (ie :: rest) =
      (some v, [Event.request (mkReq useP address attempt ie)]) := by
  simp only [try_endpoints]
  rw [hnet]
  simp only
  rw [hp]
  rfl

/-- Unfolding equation of try_endpoints when parsing raises. -/
theorem try_endpoints_cons_exn (useP : Bool) (net : Nat → Nat → HttpResult)
    (address : String) (attempt : Nat) (ie : Nat × String)
    (rest : List (Nat × String)) (j : Json) (hnet : net attempt ie.1 = .ok j)
    (hp : parse_response (formatUrl ie.2 address) address j = .exn) :
    try_endpoints useP net address attempt (ie :: rest) =
      ((try_endpoints useP net address attempt rest).1,
        Event.request (mkReq useP address attempt ie) :: Event.warnLog ::
          Event.sleep attempt (2 ^ attempt) ::
          (try_endpoints useP net address attempt rest).2) := by
  simp only [try_endpoints]
  rw [hnet]
  simp only
  rw [hp]
  rfl

/-- Unfolding equation of try_endpoints when no dispatch branch fires. -/
theorem try_endpoints_cons_noBranch (useP : Bool) (net : Nat → Nat → HttpResult)
    (address : String) (attempt : Nat) (ie : Nat × String)
    (rest : List (Nat × String)) (j : Json) (hnet : net attempt ie.1 = .ok j)
    (hp : parse_response (formatUrl ie.2 address) address j = .noBranch) :
    try_endpoints useP net address attempt (ie :: rest) =
      ((try_endpoints useP net address attempt rest).1,
        Event.request (mkReq useP address attempt ie) ::
          (try_endpoints useP net address attempt rest).2) := by
  simp only [try_endpoints]
  rw [hnet]
  simp only
  rw [hp]
  rfl

/-- Unfolding equation of run_passes when the pass found a value. -/
theorem run_passes_cons_some (useP : Bool) (net : Nat → Nat → HttpResult)
    (address : String) (a : Nat) (rest : List Nat) (v : Json)
    (h : (try_endpoints useP net address a API_ENDPOINTS.enum).1 = some v) :
    run_passes useP net address (a :: rest) =
      (some v, (try_endpoints useP net address a API_ENDPOINTS.enum).2) := by
  simp only [run_passes]
  rw [h]

/-- Unfolding equation of run_passes when the pass was exhausted. -/
theorem run_passes_cons_none (useP : Bool) (net : Nat → Nat → HttpResult)
    (address : String) (a : Nat) (rest : List Nat)
    (h : (try_endpoints useP net address a API_ENDPOINTS.enum).1 = none) :
    run_passes useP net address (a :: rest) =
      ((run_passes useP net address rest).1,
        (try_endpoints useP net address a API_ENDPOINTS.enum).2 ++
          (run_passes useP net address rest).2) := by
  simp only [run_passes]
  rw [h]

/-- One pass requests an initial segment of its per-pass schedule, and
requests the whole schedule when it ends without a value. -/
theorem try_endpoints_requests (useP : Bool) (net : Nat → Nat → HttpResult)
    (address : String) (attempt : Nat) :
    ∀ eps : List (Nat × String),
      (∃ t, requestsOf (try_endpoints useP net address attempt eps).2 ++ t
          = eps.map (mkReq useP address attempt))
      ∧ ((try_endpoints useP net address attempt eps).1 = none →
          requestsOf (try_endpoints useP net address attempt eps).2
            = eps.map (mkReq useP address attempt))
  | [] => by simp [try_endpoints, requestsOf]
  | ie :: rest => by
    obtain ⟨⟨t, ht⟩, hnone⟩ := try_endpoints_requests useP net address attempt rest
    cases hnet : net attempt ie.1 with
    | fail =>
      rw [try_endpoints_cons_fail useP net address attempt ie rest hnet]
      exact ⟨⟨t, by simp [requestsOf, ht]⟩,
        fun h => by simp [requestsOf, hnone h]⟩
    | ok j =>
      cases hp : parse_response (formatUrl ie.2 address) address j with
      | value v =>
        rw [try_endpoints_cons_value useP net address attempt ie rest j v hnet hp]
        exact ⟨⟨rest.map (mkReq useP address attempt), by simp [requestsOf]⟩,
          fun h => by simp at h⟩
      | exn =>
        rw [try_endpoints_cons_exn useP net address attempt ie rest j hnet hp]
        exact ⟨⟨t, by simp [requestsOf, ht]⟩,
          fun h => by simp [requestsOf, hnone h]⟩
      | noBranch =>
        rw [try_endpoints_cons_noBranch useP net address attempt ie rest j hnet hp]
        exact ⟨⟨t, by simp [requestsOf, ht]⟩,
          fun h => by simp [requestsOf, hnone h]⟩

/-- Across passes the requests form an initial segment of the
concatenated pass schedules, with equality on exhaustion. -/
theorem run_passes_requests (useP : Bool) (net : Nat → Nat → HttpResult)
    (address : String) :
    ∀ passes : List Nat,
      (∃ t, requestsOf (run_passes useP net address passes).2 ++ t
          = passes.flatMap (passSchedule useP address))
      ∧ ((run_passes useP net address passes).1 = none →
          requestsOf (run_passes useP net address passes).2
            = passes.flatMap (passSchedule useP address))
  | [] => by simp [run_passes, requestsOf]
  | a :: rest => by
    obtain ⟨⟨t, ht⟩, hnone⟩ := run_passes_requests useP net address rest
    obtain ⟨⟨t', ht'⟩, hnone'⟩ := try_endpoints_requests useP net address a API_ENDPOINTS.enum
    have hsched : API_ENDPOINTS.enum.map (mkReq useP address a)
        = passSchedule useP address a := rfl
    cases htr : (try_endpoints useP net address a API_ENDPOINTS.enum).1 with
    | some v =>
      rw [run_passes_cons_some useP net address a rest v htr]
      refine ⟨⟨t' ++ rest.flatMap (passSchedule useP address), ?_⟩,
        fun h => by simp at h⟩
      simp only [List.flatMap_cons, ← List.append_assoc, ht', hsched]
    | none =>
      have heq := hnone' htr
      rw [run_passes_cons_none useP net address a rest htr]
      refine ⟨⟨t, ?_⟩, fun h => ?_⟩
      · simp only [List.flatMap_cons, requestsOf_append, heq, hsched,
          List.append_assoc, ht]
      · simp only [List.flatMap_cons, requestsOf_append, heq, hsched, hnone h]

/-- Every request of the full schedule carries the 15-second timeout. -/
theorem fullSchedule_timeout (useP : Bool) (address : String) :
    ∀ r ∈ fullSchedule useP address, r.timeout = 15 := by
  intro r hr
  simp only [fullSchedule, passSchedule, List.mem_flatMap, List.mem_map] at hr
  obtain ⟨a, _, ie, _, rfl⟩ := hr
  rfl

/-- Every sleep a pass emits is tagged with that pass and lasts
2 ^ attempt seconds. -/
theorem try_endpoints_sleep (useP : Bool) (net : Nat → Nat → HttpResult)
    (address : String) (attempt : Nat) :
    ∀ (eps : List (Nat × String)) (b s : Nat),
      Event.sleep b s ∈ (try_endpoints useP net address attempt eps).2 →
      b = attempt ∧ s = 2 ^ attempt
  | [] => by simp [try_endpoints]
  | ie :: rest => by
    intro b s h
    cases hnet : net attempt ie.1 with
    | fail =>
      rw [try_endpoints_cons_fail useP net address attempt ie rest hnet] at h
      simp only [List.mem_cons] at h
      rcases h with h | h | h | h
      · exact absurd h (by simp)
      · exact absurd h (by simp)
      · obtain ⟨h1, h2⟩ := Event.sleep.inj h
        exact ⟨h1, h2⟩
      · exact try_endpoints_sleep useP net address attempt rest b s h
    | ok j =>
      cases hp : parse_response (formatUrl ie.2 address) address j with
      | value v =>
        rw [try_endpoints_cons_value useP net address attempt ie rest j v hnet hp] at h
        simp at h
      | exn =>
        rw [try_endpoints_cons_exn useP net address attempt ie rest j hnet hp] at h
        simp only [List.mem_cons] at h
        rcases h with h | h | h | h
        · exact absurd h (by simp)
        · exact absurd h (by simp)
        · obtain ⟨h1, h2⟩ := Event.sleep.inj h
          exact ⟨h1, h2⟩
        · exact try_endpoints_sleep useP net address attempt rest b s h
      | noBranch =>
        rw [try_endpoints_cons_noBranch useP net address attempt ie rest j hnet hp] at h
        simp only [List.mem_cons] at h
        rcases h with h | h
        · exact absurd h (by simp)
        · exact try_endpoints_sleep useP net address attempt rest b s h

/-- Every sleep the pass loop emits is tagged with a listed pass index
and lasts 2 ^ (that index) seconds. -/
theorem run_passes_sleep (useP : Bool) (net : Nat → Nat → HttpResult)
    (address : String) :
    ∀ (passes : List Nat) (b s : Nat),
      Event.sleep b s ∈ (run_passes useP net address passes).2 →
      b ∈ passes ∧ s = 2 ^ b
  | [] => by simp [run_passes]
  | a :: rest => by
    intro b s h
    cases htr : (try_endpoints useP net address a API_ENDPOINTS.enum).1 with
    | some v =>
      rw [run_passes_cons_some useP net address a rest v htr] at h
      obtain ⟨h1, h2⟩ := try_endpoints_sleep useP net address a _ b s h
      exact ⟨h1 ▸ List.mem_cons_self a rest, h1 ▸ h2⟩
    | none =>
      rw [run_passes_cons_none useP net address a rest htr] at h
      simp only [List.mem_append] at h
      rcases h with h | h
      · obtain ⟨h1, h2⟩ := try_endpoints_sleep useP net address a _ b s h
        exact ⟨h1 ▸ List.mem_cons_self a rest, h1 ▸ h2⟩
      · obtain ⟨h1, h2⟩ := run_passes_sleep useP net address rest b s h
        exact ⟨List.mem_cons_of_mem a h1, h2⟩

/-! ### Helper lemmas for WIF hex rendering -/

set_option maxRecDepth 4000 in
/-- One byte renders to the two zero digits exactly when it is zero. -/
theorem byteHexChars_eq_zeros (b : Fin 256) :
    byteHexChars b = ['0', '0'] ↔ b = 0 := by
  revert b
  decide

/-- A four-byte string renders to eight zero digits exactly when every
byte is zero. -/
theorem bytesHex_four (l : List (Fin 256)) (h : l.length = 4) :
    bytesHex l = "00000000" ↔ ∀ x ∈ l, x = 0 := by
  rcases l with _ | ⟨a, _ | ⟨b, _ | ⟨c, _ | ⟨d, _ | ⟨e, t⟩⟩⟩⟩⟩ <;> simp only [List.length] at h
  case cons.cons.cons.cons.nil =>
    constructor
    · intro he
      have hd : [a, b, c, d].flatMap byteHexChars = ("00000000" : String).data :=
        congrArg String.data he
      have hrhs : ("00000000" : String).data
          = ['0', '0'] ++ (['0', '0'] ++ (['0', '0'] ++ (['0', '0'] ++ []))) := rfl
      rw [hrhs] at hd
      simp only [List.flatMap_cons, List.flatMap_nil] at hd
      obtain ⟨h1, hd⟩ := List.append_inj hd rfl
      obtain ⟨h2, hd⟩ := List.append_inj hd rfl
      obtain ⟨h3, h4⟩ := List.append_inj hd rfl
      have e1 := (byteHexChars_eq_zeros a).mp h1
      have e2 := (byteHexChars_eq_zeros b).mp h2
      have e3 := (byteHexChars_eq_zeros c).mp h3
      have e4 := (byteHexChars_eq_zeros d).mp (by simpa using h4)
      simp [e1, e2, e3, e4]
    · intro hz
      have e1 : a = 0 := hz a (by simp)
      have e2 : b = 0 := hz b (by simp)
      have e3 : c = 0 := hz c (by simp)
      have e4 : d = 0 := hz d (by simp)
      subst e1
      subst e2
      subst e3
      subst e4
      rfl
  all_goals omega

/-! ### Claim theorems -/

/-- C1: the claim states that when every provider request fails on
every one of the MAX_RETRIES passes, check_balance returns an explicit
unknown outcome distinguishing a failed lookup from a zero balance and
never returns the integer 0.  The code instead ends with return 0: on
the all-failing oracle the loop finishes with no extracted value (first
conjunct) and the function returns the number 0 (second conjunct),
indistinguishable from a zero balance.  The claim is recorded as a code
bug; this theorem evaluates the code at the failing input. -/
theorem c1_all_fail_returns_zero :
    (check_balance_core true failNet "1FailAddr").1 = none ∧
    (check_balance true failNet "1FailAddr").1 = Json.num 0 :=
  ⟨rfl, rfl⟩

/-- C2 counterexample: at the three-word phrase a b c, whose word count
3 is not a valid BIP39 length, generate_mnemonics does not propagate
any exception to the caller: it returns normally (Except.ok), merely
logging the invalid-length error, so the claimed InvalidLengthError
propagation is false on the code. -/
theorem c2_counterexample :
    generate_mnemonics "a b c"
      = Except.ok ⟨[GenEvent.errInvalidLength], false⟩ := rfl

/-- C2 (amended): for every partial phrase whose whitespace-split word
count is not one of 12, 15, 18, 21, 24, generate_mnemonics logs an
invalid-length error and returns normally without reaching the
generation body, so no candidate is emitted and no exception reaches
the caller. -/
theorem c2_invalid_length_rejected (p : String)
    (h : (pySplitWs p).length ∉ VALID_LENGTHS) :
    ∃ r, generate_mnemonics p = Except.ok r ∧
      GenEvent.errInvalidLength ∈ r.events ∧ r.proceeded = false := by
  simp only [generate_mnemonics]
  rw [if_pos h]
  exact ⟨_, rfl, by simp, rfl⟩

/-- C2 witness: the amended theorem applied at the phrase a b c. -/
theorem c2_invalid_length_rejected_witness :
    ∃ r, generate_mnemonics "a b c" = Except.ok r ∧
      GenEvent.errInvalidLength ∈ r.events ∧ r.proceeded = false :=
  c2_invalid_length_rejected "a b c" (by decide)

/-- C3: the three known provider response shapes normalize to the same
integer: for every v the provider-specific rules extract v from the
blockchain.info shape (object keyed by the queried address), the
blockcypher flat shape and the btc.com nested shape, and check_balance
runs on responses encoding 500 in each of the three shapes all return
the number 500. -/
theorem c3_normalization (v : Int) :
    parse_response (formatUrl urlBlockchainInfo "1Addr") "1Addr"
        (Json.obj [("1Addr", Json.obj [("final_balance", Json.num v)])])
      = .value (.num v)
    ∧ parse_response (formatUrl urlBlockcypher "1Addr") "1Addr"
        (Json.obj [("final_balance", Json.num v)]) = .value (.num v)
    ∧ parse_response (formatUrl urlBtcCom "1Addr") "1Addr"
        (Json.obj [("data", Json.obj [("confirmed", Json.num v)])]) = .value (.num v)
    ∧ (check_balance false c3netA "1Addr").1 = Json.num 500
    ∧ (check_balance false c3netB "1Addr").1 = Json.num 500
    ∧ (check_balance false c3netC "1Addr").1 = Json.num 500 :=
  ⟨rfl, rfl, rfl, rfl, rfl, rfl⟩

/-- C4: every check_balance call issues its requests as an initial
segment of the fixed full schedule (providers in priority order, one
request per provider per pass, at most MAX_RETRIES passes), every
issued request carries the 15-second timeout, and when the call ends
with no extracted value every scheduled request was issued: a failure
on one provider falls through to the rest of the schedule instead of
aborting the lookup. -/
theorem c4_schedule (useP : Bool) (net : Nat → Nat → HttpResult) (address : String) :
    (∃ t, requestsOf (check_balance_core useP net address).2 ++ t
        = fullSchedule useP address)
    ∧ (∀ r ∈ requestsOf (check_balance_core useP net address).2, r.timeout = 15)
    ∧ ((check_balance_core useP net address).1 = none →
        requestsOf (check_balance_core useP net address).2
          = fullSchedule useP address) := by
  obtain ⟨⟨t, ht⟩, hnone⟩ := run_passes_requests useP net address (List.range MAX_RETRIES)
  have hfull : (List.range MAX_RETRIES).flatMap (passSchedule useP address)
      = fullSchedule useP address := rfl
  refine ⟨⟨t, by rw [← hfull]; exact ht⟩, ?_, fun h => by rw [← hfull]; exact hnone h⟩
  intro r hr
  apply fullSchedule_timeout useP address
  rw [← hfull, ← ht]
  exact List.mem_append_left _ hr

/-- C4 witness: on the all-failing oracle the call exhausts and the
issued requests are exactly the full schedule. -/
theorem c4_schedule_witness :
    requestsOf (check_balance_core true failNet "1FailAddrB").2
      = fullSchedule true "1FailAddrB" :=
  (c4_schedule true failNet "1FailAddrB").2.2 rfl

/-- C5: every backoff sleep a check_balance call performs during pass
attempt lasts exactly 2 to the power attempt seconds, such sleeps only
happen in the at most MAX_RETRIES passes, and the backoff delay
strictly increases from any pass to any later pass of the same call. -/
theorem c5_backoff (useP : Bool) (net : Nat → Nat → HttpResult) (address : String)
    (a s : Nat) (h : Event.sleep a s ∈ (check_balance useP net address).2) :
    s = 2 ^ a ∧ a < MAX_RETRIES ∧
      ∀ a2 s2, Event.sleep a2 s2 ∈ (check_balance useP net address).2 →
        a < a2 → s < s2 := by
  obtain ⟨ha, hs⟩ := run_passes_sleep useP net address (List.range MAX_RETRIES) a s h
  refine ⟨hs, List.mem_range.mp ha, fun a2 s2 h2 hlt => ?_⟩
  obtain ⟨_, hs2⟩ := run_passes_sleep useP net address (List.range MAX_RETRIES) a2 s2 h2
  rw [hs, hs2]
  exact Nat.pow_lt_pow_right (by norm_num) hlt

/-- C5 witness: on the all-failing oracle the trace contains a sleep of
pass 0, it lasts 2 to the power 0 seconds, and any sleep of a later
pass is strictly longer. -/
theorem c5_backoff_witness :
    1 = 2 ^ 0 ∧ 0 < MAX_RETRIES ∧
      ∀ a2 s2, Event.sleep a2 s2 ∈ (check_balance true failNet "1BackoffAddr").2 →
        0 < a2 → 1 < s2 :=
  c5_backoff true failNet "1BackoffAddr" 0 1 (by decide)

/-- C6: the claim states that on an RPC authentication or connectivity
failure check_balance_local logs and returns a result distinguishing
unknown from a zero balance.  The code logs the error and returns 0:
on the always-raising RPC oracle the returned value is 0 and equals the
value returned for a genuinely zero received amount, so the caller
cannot distinguish the two (the failure branch does log, third
conjunct).  The claim is recorded as a code bug; this theorem evaluates
the code at the failing input. -/
theorem c6_rpc_failure_returns_zero :
    (check_balance_local (fun _ => none) "1LocalAddr").1 = 0
    ∧ (check_balance_local (fun _ => none) "1LocalAddr").1
        = (check_balance_local (fun _ => some 0) "1LocalAddr").1
    ∧ (check_balance_local (fun _ => none) "1LocalAddr").2 = true := by
  refine ⟨rfl, ?_, rfl⟩
  simp [check_balance_local]

/-- C7: for every candidate mnemonic, derive_addresses enumerates, for
each index i in 0..19, exactly the four fixed path templates
44/0/0/0/i, 49/0/0/0/i, 84/0/0/0/i and the account variation 44/0/i/0/0
(first three coordinates hardened), pairing each with one derived
address, for exactly 4 * 20 entries; and the output depends on the
mnemonic only through the derived seed, so the address set is
deterministic given the seed derivation. -/
theorem c7_derivation_paths (to_seed : String → String → List Nat)
    (derive_one : List Nat → DPath → String) (m : String) :
    (derive_addresses to_seed derive_one m).length = 4 * 20
    ∧ (derive_addresses to_seed derive_one m).map Prod.fst
        = (List.range 20).flatMap (fun i =>
            [⟨44, 0, 0, 0, i⟩, ⟨49, 0, 0, 0, i⟩, ⟨84, 0, 0, 0, i⟩, ⟨44, 0, i, 0, 0⟩])
    ∧ ∀ (ts2 : String → String → List Nat) (m2 : String),
        to_seed m "" = ts2 m2 "" →
        derive_addresses to_seed derive_one m
          = derive_addresses ts2 derive_one m2 := by
  have hmap : (derive_addresses to_seed derive_one m).map Prod.fst
      = (List.range 20).flatMap (fun i =>
          [⟨44, 0, 0, 0, i⟩, ⟨49, 0, 0, 0, i⟩, ⟨84, 0, 0, 0, i⟩, ⟨44, 0, i, 0, 0⟩]) := by
    simp [derive_addresses, paths_for, List.map_flatMap]
  refine ⟨?_, hmap, fun ts2 m2 hseed => ?_⟩
  · rw [← List.length_map (derive_addresses to_seed derive_one m) Prod.fst, hmap]
    rfl
  · simp only [derive_addresses]
    rw [hseed]

/-- C7 witness: the determinism conjunct applied at a concrete seed
oracle constant in the mnemonic, and two distinct mnemonics. -/
theorem c7_derivation_paths_witness :
    derive_addresses (fun _ _ => []) (fun _ _ => "a") "mnemonicA"
      = derive_addresses (fun _ _ => []) (fun _ _ => "a") "mnemonicB" :=
  (c7_derivation_paths (fun _ _ => []) (fun _ _ => "a") "mnemonicA").2.2
    (fun _ _ => []) "mnemonicB" rfl

/-- C8: a partial phrase with more than 5 placeholder characters but a
valid word count gets the impracticality warning and is not rejected:
generate_mnemonics returns normally with exactly the warning logged and
control proceeding into the generation body. -/
theorem c8_warning_not_failure (p : String) (hq : 5 < countQ p)
    (hl : (pySplitWs p).length ∈ VALID_LENGTHS) :
    generate_mnemonics p = Except.ok ⟨[GenEvent.warnImpractical], true⟩ := by
  simp only [generate_mnemonics]
  rw [if_neg (by simpa using hl), if_pos hq]

/-- C8 witness: a 12-word phrase with 6 placeholder words warns and
proceeds. -/
theorem c8_warning_not_failure_witness :
    generate_mnemonics "? ? ? ? ? ? gap gap gap gap gap gap"
      = Except.ok ⟨[GenEvent.warnImpractical], true⟩ :=
  c8_warning_not_failure "? ? ? ? ? ? gap gap gap gap gap gap" (by decide) (by decide)

/-- C9: validate_wif is total and returns true exactly when the base58
decode oracle succeeds, the decoded byte string has length exactly 38,
and its final four bytes are all zero; any decoding exception yields
false.  Totality holds by construction of the embedding, mirroring the
bare except of the source. -/
theorem c9_validate_wif_iff (decode : String → Option (List (Fin 256))) (wif : String) :
    validate_wif decode wif = true ↔
      ∃ d, decode wif = some d ∧ d.length = 38 ∧ ∀ x ∈ d.drop 34, x = 0 := by
  cases hd : decode wif with
  | none => simp [validate_wif, hd]
  | some d =>
    simp only [validate_wif, hd, Bool.and_eq_true, beq_iff_eq]
    constructor
    · rintro ⟨hlen, hhex⟩
      have hsub : d.length - 4 = 34 := by omega
      rw [hsub] at hhex
      refine ⟨d, rfl, hlen, ?_⟩
      exact (bytesHex_four _ (by simp [hlen])).mp hhex
    · rintro ⟨d2, hd2, hlen, hzero⟩
      have hdd : d = d2 := by injection hd2
      rw [← hdd] at hlen hzero
      have hsub : d.length - 4 = 34 := by omega
      rw [hsub]
      exact ⟨hlen, (bytesHex_four _ (by simp [hlen])).mpr hzero⟩

/-- C10: placeholders are counted as occurrences of the question-mark
character anywhere in the raw unsplit phrase, and the impracticality
check runs before the length validation: a phrase with more than five
such characters and an invalid word count still gets the warning,
logged before the invalid-length error, although generation is then
rejected. -/
theorem c10_count_raw_warn_first (p : String) (hq : 5 < countQ p)
    (hl : (pySplitWs p).length ∉ VALID_LENGTHS) :
    generate_mnemonics p
      = Except.ok ⟨[GenEvent.warnImpractical, GenEvent.errInvalidLength], false⟩ := by
  simp only [generate_mnemonics]
  rw [if_pos hl, if_pos hq]
  rfl

/-- C10 witness: a single token of six question marks counts 6
placeholders from the raw string (none of its tokens is a lone
question mark), warns, and is then rejected for its length 1. -/
theorem c10_count_raw_warn_first_witness :
    generate_mnemonics "??????"
      = Except.ok ⟨[GenEvent.warnImpractical, GenEvent.errInvalidLength], false⟩ :=
  c10_count_raw_warn_first "??????" (by decide) (by decide)

end Recovery
